import Mathlib

/-
Verification of the Twitter → ActivityStreams normalizer (src/twitter.py).

The Python module is shallowly embedded: decoded JSON records are modelled by
the inductive type `JValue`; Python dicts become association lists; fallible
Python code returns `Except String _` where the error string names the Python
exception class. Functions from missing modules (`webutil.util.trim_nulls`,
`source.Source.tag_uri`, `source.Source.postprocess_activity`) are modelled
from the specification and marked as such in their doc comments.
-/

namespace Granary

/-- A decoded JSON value, the universe of records flowing through the
normalizer. JSON numbers are modelled as integers (no claim depends on
non-integer numerics). -/
inductive JValue where
  | null : JValue
  | bool (b : Bool) : JValue
  | int (n : Int) : JValue
  | str (s : String) : JValue
  | list (xs : List JValue) : JValue
  | obj (kvs : List (String × JValue)) : JValue
deriving Inhabited

/-- First-match association-list lookup, the model of Python dict access
(dict keys are unique, so first-match agrees with dict semantics). -/
def lookup : List (String × JValue) → String → Option JValue
  | [], _ => none
  | (k1, v1) :: rest, k => if k1 = k then some v1 else lookup rest k

/-- Lookup on a `JValue` that is expected to be an object; `none` on
non-objects and missing keys. Used only in theorem statements. -/
def jlookup (v : JValue) (k : String) : Option JValue :=
  match v with
  | .obj kvs => lookup kvs k
  | _ => none

/-- Python truthiness of a decoded JSON value. -/
def truthy : JValue → Bool
  | .null => false
  | .bool b => b
  | .int n => n != 0
  | .str s => s != ""
  | .list xs => !xs.isEmpty
  | .obj kvs => !kvs.isEmpty

/-- Python `repr` of a scalar value, used by `%s`-formatting of non-string
containers. String escaping is simplified (no claim formats a container). -/
def scalarRepr : JValue → String
  | .null => "None"
  | .bool b => if b then "True" else "False"
  | .int n => toString n
  | .str s => "'" ++ s ++ "'"
  | .list _ => "[...]"
  | .obj _ => "{...}"

/-- Python `str()` of a value, as applied by `%s`-formatting. Containers fall
back to the simplified repr above; no conversion in the claims formats a
container value. -/
def toPyStr : JValue → String
  | .str s => s
  | v => scalarRepr v

/-- Python `receiver.get(key)`: `None` for a missing key; raises
`AttributeError` when the receiver is not a dict. -/
def pyGet (v : JValue) (k : String) : Except String JValue :=
  match v with
  | .obj kvs => .ok ((lookup kvs k).getD .null)
  | _ => .error "AttributeError"

/-- Python `receiver.get(key, default)`. -/
def pyGetD (v : JValue) (k : String) (d : JValue) : Except String JValue :=
  match v with
  | .obj kvs => .ok ((lookup kvs k).getD d)
  | _ => .error "AttributeError"

/-- Python `receiver[i]` for a non-negative literal index: `IndexError` past
the end, `TypeError` on non-lists. -/
def pyIndex (v : JValue) (i : Nat) : Except String JValue :=
  match v with
  | .list xs =>
    match xs.get? i with
    | some x => .ok x
    | none => .error "IndexError"
  | _ => .error "TypeError"

/-- Python iteration over a value expected to be a list (`TypeError`
otherwise; iteration over strings/dicts, which would yield characters/keys,
is not exercised by any claim and is folded into the error case). -/
def pyIterList (v : JValue) : Except String (List JValue) :=
  match v with
  | .list xs => .ok xs
  | _ => .error "TypeError"

/-- Python `string_literal + value`: string concatenation, `TypeError` when
the right operand is not a string. -/
def pyAddStr (a : String) (b : JValue) : Except String JValue :=
  match b with
  | .str s => .ok (.str (a ++ s))
  | _ => .error "TypeError"

/-- Python `a - b` on values expected to be integers (`TypeError` otherwise;
booleans-as-integers are not exercised by any claim). -/
def pySub (a b : JValue) : Except String JValue :=
  match a, b with
  | .int m, .int n => .ok (.int (m - n))
  | _, _ => .error "TypeError"

/-- Replace the value at the first occurrence of a key, else append: the model
of Python `d[k] = v` on a dict. -/
def objSet (kvs : List (String × JValue)) (k : String) (v : JValue) :
    List (String × JValue) :=
  match kvs with
  | [] => [(k, v)]
  | (k1, v1) :: rest =>
    if k1 = k then (k1, v) :: rest else (k1, v1) :: objSet rest k v

/-- Remove the first occurrence of a key. -/
def eraseKey (kvs : List (String × JValue)) (k : String) :
    List (String × JValue) :=
  match kvs with
  | [] => []
  | (k1, v1) :: rest =>
    if k1 = k then rest else (k1, v1) :: eraseKey rest k

/-- Python `d[k] = v` (`TypeError` on non-dicts). -/
def pySetItem (v : JValue) (k : String) (w : JValue) : Except String JValue :=
  match v with
  | .obj kvs => .ok (.obj (objSet kvs k w))
  | _ => .error "TypeError"

/-- Python `del d[k]` (`KeyError` on a missing key, `TypeError` on
non-dicts). -/
def pyDelItem (v : JValue) (k : String) : Except String JValue :=
  match v with
  | .obj kvs =>
    if (lookup kvs k).isSome then .ok (.obj (eraseKey kvs k))
    else .error "KeyError"
  | _ => .error "TypeError"

/-- Python `d.update(pairs)` (`AttributeError` on non-dicts). The update
mapping's literal entries are applied left to right; all update literals in
the source have pairwise-distinct keys, so ordering is immaterial. -/
def pyUpdate (v : JValue) (upd : List (String × JValue)) :
    Except String JValue :=
  match v with
  | .obj kvs => .ok (.obj (upd.foldl (fun acc p => objSet acc p.1 p.2) kvs))
  | _ => .error "AttributeError"

/-- A trimmed value counting as empty: `None`, `""`, `[]`, `{}`
(spec Glossary, "Trim-nulls"). -/
def isEmptyVal : JValue → Bool
  | .null => true
  | .str s => decide (s = "")
  | .list xs => xs.isEmpty
  | .obj kvs => kvs.isEmpty
  | _ => false

mutual
/-- Modelled from the spec: `webutil.util.trim_nulls` is not among the
provided sources. Per the spec (Glossary, "Trim-nulls"), it is "the recursive
stripping of any mapping/list entry whose value is null, empty string, empty
list, or empty mapping, applied as the final step of every conversion". -/
def trim_nulls : JValue → JValue
  | .list xs => .list (trimList xs)
  | .obj kvs => .obj (trimObj kvs)
  | v => v

/-- List part of `trim_nulls`. -/
def trimList : List JValue → List JValue
  | [] => []
  | v :: rest =>
    let v1 := trim_nulls v
    if isEmptyVal v1 then trimList rest else v1 :: trimList rest

/-- Mapping part of `trim_nulls`. -/
def trimObj : List (String × JValue) → List (String × JValue)
  | [] => []
  | (k, v) :: rest =>
    let v1 := trim_nulls v
    if isEmptyVal v1 then trimObj rest else (k, v1) :: trimObj rest
end

mutual
/-- No entry of the value, at any nesting depth, is null, the empty string,
an empty list, or an empty mapping. -/
def clean : JValue → Bool
  | .list xs => cleanL xs
  | .obj kvs => cleanO kvs
  | _ => true

/-- List part of `clean`. -/
def cleanL : List JValue → Bool
  | [] => true
  | v :: rest => !isEmptyVal v && clean v && cleanL rest

/-- Mapping part of `clean`. -/
def cleanO : List (String × JValue) → Bool
  | [] => true
  | (_, v) :: rest => !isEmptyVal v && clean v && cleanO rest
end

mutual
/-- Size measure used for the termination of the mutually recursive
conversion functions. -/
def jsize : JValue → Nat
  | .list xs => 1 + jsizeL xs
  | .obj kvs => 1 + jsizeO kvs
  | _ => 1

/-- List part of `jsize`. -/
def jsizeL : List JValue → Nat
  | [] => 0
  | v :: rest => jsize v + jsizeL rest

/-- Mapping part of `jsize`. -/
def jsizeO : List (String × JValue) → Nat
  | [] => 0
  | (_, v) :: rest => jsize v + jsizeO rest
end

/-- `Twitter.DOMAIN` (src/twitter.py line 44). -/
def DOMAIN : String := "twitter.com"

/-- Modelled from the spec: `Source.tag_uri` comes from the missing `source` /
`webutil` modules. The spec (Glossary, "Tag URI") requires "a stable opaque
identifier string derived deterministically from a source-specific id/handle";
modelled as a fixed tag-URI prefix around the `%s`-formatted name. -/
def tag_uri (name : JValue) : String :=
  "tag:twitter.com,2013:" ++ toPyStr name

/-- `Twitter.user_url` (lines 356-359): `'http://%s/%s' % (cls.DOMAIN, username)`. -/
def user_url (username : JValue) : String :=
  "http://" ++ DOMAIN ++ "/" ++ toPyStr username

/-- `Twitter.status_url` (lines 361-364): `'%s/status/%s' % (cls.user_url(username), id)`. -/
def status_url (username id : JValue) : String :=
  user_url username ++ "/status/" ++ toPyStr id

/-! ### Timestamp conversion (`rfc2822_to_iso8601`, lines 339-354)

`re.sub(' [+-][0-9]{4} ', ' ', time_str)` followed by
`datetime.datetime.strptime(without_timezone, '%a %b %d %H:%M:%S %Y')` and
`.isoformat()`. The `strptime` model follows CPython's `_strptime` regexes
for each directive, taking each regex alternation first-match (CPython's
backtracking across directives differs only on inputs no claim exercises),
and the `datetime` constructor's range checks. -/

/-- Python whitespace characters (`\s` for ASCII data). -/
def pyIsSpace (c : Char) : Bool :=
  c == ' ' || c == '\t' || c == '\n' || c == '\r' ||
  c == Char.ofNat 11 || c == Char.ofNat 12

/-- Whether the offset-token pattern `' [+-][0-9]{4} '` matches at the head
of the character list. -/
def offsetAt : List Char → Bool
  | ' ' :: sg :: d1 :: d2 :: d3 :: d4 :: ' ' :: _ =>
    (sg == '+' || sg == '-') && d1.isDigit && d2.isDigit
      && d3.isDigit && d4.isDigit
  | _ => false

/-- `re.sub(' [+-][0-9]{4} ', ' ', s)`: replace every non-overlapping
occurrence of the offset token, resuming the scan after each match. A match
emits the single-space replacement and suppresses the next six characters
(the skip counter), so the scan never re-enters replaced text. -/
def stripOffsetGo : Nat → List Char → List Char
  | _ + 1, [] => []
  | skip + 1, _ :: rest => stripOffsetGo skip rest
  | 0, [] => []
  | 0, c :: rest =>
    if offsetAt (c :: rest) then ' ' :: stripOffsetGo 6 rest
    else c :: stripOffsetGo 0 rest

/-- String wrapper for the offset-token substitution. -/
def stripOffset (s : String) : String :=
  String.mk (stripOffsetGo 0 s.data)

/-- Numeric value of a decimal digit character. -/
def digitVal (c : Char) : Nat := c.toNat - '0'.toNat

/-- Case-insensitively consume a fixed name as a prefix. -/
def dropNameCI : List Char → List Char → Option (List Char)
  | [], s => some s
  | _ :: _, [] => none
  | p :: ps, c :: cs => if p.toLower == c.toLower then dropNameCI ps cs else none

/-- `%a`: one of the abbreviated weekday names, case-insensitive. -/
def dropWeekday (s : List Char) : Option (List Char) :=
  (["Mon", "Tue", "Wed", "Thu", "Fri", "Sat", "Sun"].firstM
    (fun d => dropNameCI d.data s))

/-- `%b`: one of the abbreviated month names, case-insensitive. -/
def parseMonth (s : List Char) : Option (Nat × List Char) :=
  (List.range 12).firstM (fun i =>
    match ["Jan", "Feb", "Mar", "Apr", "May", "Jun", "Jul", "Aug", "Sep",
           "Oct", "Nov", "Dec"].get? i with
    | some nm => (dropNameCI nm.data s).map (fun rest => (i + 1, rest))
    | none => none)

/-- `\s+` in the `_strptime` regex (whitespace in the format string). -/
def dropSpaces1 (s : List Char) : Option (List Char) :=
  match s with
  | c :: rest => if pyIsSpace c then some (rest.dropWhile pyIsSpace) else none
  | [] => none

/-- `%d`: the alternation `3[0-1]|[1-2]\d|0[1-9]|[1-9]| [1-9]`, first match. -/
def parseDay : List Char → Option (Nat × List Char)
  | c1 :: c2 :: rest =>
    if c1 == '3' && (c2 == '0' || c2 == '1') then
      some (30 + digitVal c2, rest)
    else if (c1 == '1' || c1 == '2') && c2.isDigit then
      some (digitVal c1 * 10 + digitVal c2, rest)
    else if c1 == '0' && ('1' ≤ c2 && c2 ≤ '9') then
      some (digitVal c2, rest)
    else if '1' ≤ c1 && c1 ≤ '9' then
      some (digitVal c1, c2 :: rest)
    else if c1 == ' ' && ('1' ≤ c2 && c2 ≤ '9') then
      some (digitVal c2, rest)
    else none
  | [c1] => if '1' ≤ c1 && c1 ≤ '9' then some (digitVal c1, []) else none
  | [] => none

/-- `%H`: the alternation `2[0-3]|[0-1]\d|\d`, first match. -/
def parseHour : List Char → Option (Nat × List Char)
  | c1 :: c2 :: rest =>
    if c1 == '2' && ('0' ≤ c2 && c2 ≤ '3') then
      some (20 + digitVal c2, rest)
    else if (c1 == '0' || c1 == '1') && c2.isDigit then
      some (digitVal c1 * 10 + digitVal c2, rest)
    else if c1.isDigit then
      some (digitVal c1, c2 :: rest)
    else none
  | [c1] => if c1.isDigit then some (digitVal c1, []) else none
  | [] => none

/-- `%M`: the alternation `[0-5]\d|\d`, first match. -/
def parseMinute : List Char → Option (Nat × List Char)
  | c1 :: c2 :: rest =>
    if ('0' ≤ c1 && c1 ≤ '5') && c2.isDigit then
      some (digitVal c1 * 10 + digitVal c2, rest)
    else if c1.isDigit then
      some (digitVal c1, c2 :: rest)
    else none
  | [c1] => if c1.isDigit then some (digitVal c1, []) else none
  | [] => none

/-- `%S`: the alternation `6[0-1]|[0-5]\d|\d`, first match. -/
def parseSecond : List Char → Option (Nat × List Char)
  | c1 :: c2 :: rest =>
    if c1 == '6' && (c2 == '0' || c2 == '1') then
      some (60 + digitVal c2, rest)
    else if ('0' ≤ c1 && c1 ≤ '5') && c2.isDigit then
      some (digitVal c1 * 10 + digitVal c2, rest)
    else if c1.isDigit then
      some (digitVal c1, c2 :: rest)
    else none
  | [c1] => if c1.isDigit then some (digitVal c1, []) else none
  | [] => none

/-- A literal `:` from the format string. -/
def dropColon (s : List Char) : Option (List Char) :=
  match s with
  | ':' :: rest => some rest
  | _ => none

/-- `%Y`: exactly four decimal digits. -/
def parseYear4 : List Char → Option (Nat × List Char)
  | c1 :: c2 :: c3 :: c4 :: rest =>
    if c1.isDigit && c2.isDigit && c3.isDigit && c4.isDigit then
      some (((digitVal c1 * 10 + digitVal c2) * 10 + digitVal c3) * 10
        + digitVal c4, rest)
    else none
  | _ => none

/-- Gregorian leap-year test, as used by `datetime`. -/
def isLeap (y : Nat) : Bool :=
  y % 4 == 0 && (y % 100 != 0 || y % 400 == 0)

/-- Number of days in a month, as validated by the `datetime` constructor. -/
def daysInMonth (y m : Nat) : Nat :=
  match m with
  | 1 => 31 | 2 => if isLeap y then 29 else 28
  | 3 => 31 | 4 => 30 | 5 => 31 | 6 => 30 | 7 => 31
  | 8 => 31 | 9 => 30 | 10 => 31 | 11 => 30 | 12 => 31
  | _ => 0

/-- `datetime.datetime.strptime(s, '%a %b %d %H:%M:%S %Y')`: the whole string
must be consumed ("unconverted data remains" otherwise), and the `datetime`
constructor enforces year ≥ 1, a valid day of month, and second ≤ 59. -/
def strptimeTwitter (s : List Char) :
    Option (Nat × Nat × Nat × Nat × Nat × Nat) := do
  let s ← dropWeekday s
  let s ← dropSpaces1 s
  let (mo, s) ← parseMonth s
  let s ← dropSpaces1 s
  let (d, s) ← parseDay s
  let s ← dropSpaces1 s
  let (h, s) ← parseHour s
  let s ← dropColon s
  let (mi, s) ← parseMinute s
  let s ← dropColon s
  let (sec, s) ← parseSecond s
  let s ← dropSpaces1 s
  let (y, s) ← parseYear4 s
  if s.isEmpty && 1 ≤ y && 1 ≤ d && d ≤ daysInMonth y mo && sec ≤ 59 then
    some (y, mo, d, h, mi, sec)
  else
    none

/-- Left-pad a numeral with zeros to the given width. -/
def padNum (w : Nat) (n : Nat) : String :=
  let s := toString n
  String.mk (List.replicate (w - s.length) '0') ++ s

/-- `datetime.isoformat()` for a whole-second datetime. -/
def isoformat (y mo d h mi sec : Nat) : String :=
  padNum 4 y ++ "-" ++ padNum 2 mo ++ "-" ++ padNum 2 d ++ "T" ++
  padNum 2 h ++ ":" ++ padNum 2 mi ++ ":" ++ padNum 2 sec

/-- `Twitter.rfc2822_to_iso8601` (lines 339-354). A falsy input returns
`None`; a truthy non-string raises `TypeError` inside `re.sub`; a string that
fails to parse after offset stripping raises `ValueError` in `strptime`. -/
def rfc2822_to_iso8601 (time_str : JValue) : Except String JValue :=
  if truthy time_str = false then
    .ok .null
  else
    match time_str with
    | .str s =>
      match strptimeTwitter (stripOffset s).data with
      | some (y, mo, d, h, mi, sec) => .ok (.str (isoformat y mo d h mi sec))
      | none => .error "ValueError"
    | _ => .error "TypeError"

/-! ### The generator-link regex (line 183)

`re.search('<a href="([^"]+)".*>(.+)</a>', source)` is modelled by a small
backtracking matcher whose semantics follow Python's `re`: leftmost match
wins, `*`/`+` over single-character atoms are greedy with give-back, `.`
matches anything but a newline, and a negated class matches any other
character (newline included). `x+` is written as `x` then greedy `x*`,
which is exactly Python's behavior for single-character atoms. -/

/-- A single-character regex atom. -/
inductive RAtom where
  | anyNoNl : RAtom
  | noneOf (cs : List Char) : RAtom

/-- Whether an atom matches a character. -/
def RAtom.matches : RAtom → Char → Bool
  | .anyNoNl, c => c != '\n'
  | .noneOf cs, c => !cs.contains c

/-- The regex fragment language needed for the generator pattern. -/
inductive RE where
  | lit (s : List Char) : RE
  | one (a : RAtom) : RE
  | starG (a : RAtom) : RE
  | seq (r1 r2 : RE) : RE
  | group (n : Nat) (r : RE) : RE

/-- Captured groups: group number to captured substring, most recent first. -/
abbrev Caps := List (Nat × String)

/-- Maximal run of characters matched by an atom, with the remainder. -/
def takeAtom (a : RAtom) : List Char → List Char × List Char
  | [] => ([], [])
  | c :: cs =>
    if a.matches c then
      let (run, rest) := takeAtom a cs
      (c :: run, rest)
    else ([], c :: cs)

/-- Greedy give-back: try the continuation with the longest consumption
first, returning one consumed character at a time on failure. -/
def tryLongest (consumedRev rest : List Char) (k : List Char → Option Caps) :
    Option Caps :=
  match k rest with
  | some r => some r
  | none =>
    match consumedRev with
    | [] => none
    | c :: cr => tryLongest cr (c :: rest) k

/-- Backtracking matcher in continuation-passing style; the continuation
receives the remaining input and the captures accumulated so far. -/
def reMatch : RE → List Char → Caps → (List Char → Caps → Option Caps) →
    Option Caps
  | .lit s, input, caps, k =>
    if s.isPrefixOf input then k (input.drop s.length) caps else none
  | .one a, input, caps, k =>
    match input with
    | [] => none
    | c :: rest => if a.matches c then k rest caps else none
  | .starG a, input, caps, k =>
    let (run, rest) := takeAtom a input
    tryLongest run.reverse rest (fun rem => k rem caps)
  | .seq r1 r2, input, caps, k =>
    reMatch r1 input caps (fun rest caps1 => reMatch r2 rest caps1 k)
  | .group n r, input, caps, k =>
    reMatch r input caps (fun rest caps1 =>
      k rest ((n, String.mk (input.take (input.length - rest.length)))
        :: caps1))

/-- `re.search`: try a full match at each start position, leftmost first. -/
def reSearch (r : RE) (s : List Char) : Option Caps :=
  match reMatch r s [] (fun _ caps => some caps) with
  | some caps => some caps
  | none =>
    match s with
    | [] => none
    | _ :: rest => reSearch r rest

/-- The pattern `<a href="([^"]+)".*>(.+)</a>` from line 183. -/
def source_link_re : RE :=
  .seq (.lit "<a href=\"".data)
  (.seq (.group 1 (.seq (.one (.noneOf ['"'])) (.starG (.noneOf ['"']))))
  (.seq (.lit "\"".data)
  (.seq (.starG .anyNoNl)
  (.seq (.lit ">".data)
  (.seq (.group 2 (.seq (.one .anyNoNl) (.starG .anyNoNl)))
  (.lit "</a>".data))))))

/-- `re.search(pattern, value)` raises `TypeError` on non-string input. -/
def pySearch (r : RE) (v : JValue) : Except String (Option Caps) :=
  match v with
  | .str s => .ok (reSearch r s.data)
  | _ => .error "TypeError"

/-- `match.group(n)` as a JSON value: the captured substring, or `None` for a
group that did not participate. -/
def capGroup (caps : Caps) (n : Nat) : JValue :=
  match caps.find? (fun p => p.1 == n) with
  | some p => .str p.2
  | none => .null

/-! ### The conversion functions -/

/-- Left-to-right effectful map, the model of a Python list comprehension
whose body may raise. -/
def mapME (f : JValue → Except String JValue) :
    List JValue → Except String (List JValue)
  | [] => .ok []
  | x :: rest => do
    let y ← f x
    let ys ← mapME f rest
    pure (y :: ys)

/-- `Twitter.user_to_actor` (lines 292-314). A user with a falsy screen name
yields the empty mapping; otherwise the actor literal is built (its
`published` entry converting `created_at` and therefore able to raise) and
recursively trimmed. In the source the id entry is
`self.tag_uri(username) if username else None`; `username` is truthy on this
path, so the conditional's else arm is dead. -/
def user_to_actor (user : JValue) : Except String JValue := do
  let username ← pyGet user "screen_name"
  if truthy username = false then
    return .obj []
  let nm ← pyGet user "name"
  let img ← pyGet user "profile_image_url"
  let created ← pyGet user "created_at"
  let published ← rfc2822_to_iso8601 created
  let loc ← pyGet user "location"
  let desc ← pyGet user "description"
  pure (trim_nulls (.obj
    [("displayName", nm),
     ("image", .obj [("url", img)]),
     ("id", .str (tag_uri username)),
     ("published", published),
     ("url", .str (user_url username)),
     ("location", .obj [("displayName", loc)]),
     ("username", username),
     ("description", desc)]))

/-- One entry of `entities['user_mentions']` to a person tag (lines 239-244). -/
def mention_to_tag (t : JValue) : Except String JValue := do
  let sn ← pyGet t "screen_name"
  let nm ← pyGet t "name"
  let ind ← pyGet t "indices"
  pure (.obj [("objectType", .str "person"), ("id", .str (tag_uri sn)),
    ("url", .str (user_url sn)), ("displayName", nm), ("indices", ind)])

/-- One entry of `entities['hashtags']` to a hashtag tag (lines 246-249):
the url is the string literal concatenated with `t.get('text')`, raising
`TypeError` when the latter is not a string. -/
def hashtag_to_tag (t : JValue) : Except String JValue := do
  let txt ← pyGet t "text"
  let u ← pyAddStr "https://twitter.com/search?q=%23" txt
  let ind ← pyGet t "indices"
  pure (.obj [("objectType", .str "hashtag"), ("url", u), ("indices", ind)])

/-- One entry of `entities['urls']` to an article tag (lines 255-259). -/
def url_to_tag (t : JValue) : Except String JValue := do
  let eu ← pyGet t "expanded_url"
  let ind ← pyGet t "indices"
  pure (.obj [("objectType", .str "article"), ("url", eu), ("indices", ind)])

/-- The per-tag span rewrite (lines 261-268): a truthy `indices` value is
replaced by `startIndex = indices[0]` and `length = indices[1] - indices[0]`
and the `indices` key is deleted; a falsy one leaves the tag unchanged. -/
def rewrite_tag_indices (t : JValue) : Except String JValue := do
  let ind ← pyGet t "indices"
  if truthy ind then do
    let i0 ← pyIndex ind 0
    let i1 ← pyIndex ind 1
    let len ← pySub i1 i0
    let t1 ← pySetItem t "startIndex" i0
    let t2 ← pySetItem t1 "length" len
    pyDelItem t2 "indices"
  else
    pure t

/-- `'https://maps.google.com/maps?q=%s,%s' % tuple(coords)` (lines 287-288):
`TypeError` unless `coords` is a two-element list. -/
def formatMapsUrl : JValue → Except String String
  | .list [a, b] =>
    .ok ("https://maps.google.com/maps?q=" ++ toPyStr a ++ "," ++ toPyStr b)
  | _ => .error "TypeError"

mutual
/-- `Twitter.tweet_to_object` (lines 190-290). The mutual recursion with
`retweet_to_objectF` (a tweet's `retweets` entries are converted as nested
share objects, and each share conversion re-runs object conversion on the
wrapper) is structured on a recursion-depth fuel so that the definition is
structurally recursive; the public wrapper `tweet_to_object` supplies fuel
strictly larger than the recursion can consume (two units per strictly
smaller nested record), so the fuel-exhaustion arm is unreachable. -/
def tweet_to_objectF : Nat → JValue → Except String JValue
  | 0, _ => .error "RecursionError"
  | fuel + 1, tweet => do
    let id ← pyGet tweet "id_str"
    if truthy id = false then
      return .obj []
    let created ← pyGet tweet "created_at"
    let published ← rfc2822_to_iso8601 created
    let text ← pyGet tweet "text"
    let obj0 : List (String × JValue) :=
      [("objectType", .str "note"), ("published", published),
       ("content", text), ("attachments", .list [])]
    let user ← pyGet tweet "user"
    let obj1 ←
      if truthy user then do
        let author ← user_to_actor user
        let obj1a := objSet obj0 "author" author
        let username ← pyGet author "username"
        if truthy username then
          pure (objSet (objSet obj1a "id" (.str (tag_uri id))) "url"
            (.str (status_url username id)))
        else
          pure obj1a
      else
        pure obj0
    let entities ← pyGetD tweet "entities" (.obj [])
    let mediaList ← pyGetD entities "media" (.list [.obj []])
    let media0 ← pyIndex mediaList 0
    let media_url ← pyGet media0 "media_url"
    let obj2 :=
      if truthy media_url then
        objSet (objSet obj1 "image" (.obj [("url", media_url)])) "attachments"
          (.list [.obj [("objectType", .str "image"),
            ("image", .obj [("url", media_url)])]])
      else
        obj1
    let mentionsV ← pyGetD entities "user_mentions" (.list [])
    let mentions ← pyIterList mentionsV
    let mentionTags ← mapME mention_to_tag mentions
    let hashtagsV ← pyGetD entities "hashtags" (.list [])
    let hashtags ← pyIterList hashtagsV
    let hashtagTags ← mapME hashtag_to_tag hashtags
    let urlsV ← pyGetD entities "urls" (.list [])
    let urls ← pyIterList urlsV
    let urlTags ← mapME url_to_tag urls
    let tags0 ← mapME rewrite_tag_indices (mentionTags ++ hashtagTags ++ urlTags)
    let retweetsV ← pyGetD tweet "retweets" (.list [])
    let retweets ← pyIterList retweetsV
    let rtObjs ← mapME (retweet_to_objectF fuel) retweets
    let obj3 := objSet obj2 "tags" (.list (tags0 ++ rtObjs))
    let place ← pyGet tweet "place"
    let obj4 ←
      if truthy place then do
        let fullName ← pyGet place "full_name"
        let placeId ← pyGet place "id"
        let loc0 : List (String × JValue) :=
          [("displayName", fullName), ("id", placeId)]
        let geo ← pyGet tweet "geo"
        let loc1 ←
          if truthy geo then do
            let coords ← pyGet geo "coordinates"
            if truthy coords then do
              let mapsUrl ← formatMapsUrl coords
              pure (objSet loc0 "url" (.str mapsUrl))
            else
              pure loc0
          else
            pure loc0
        pure (objSet obj3 "location" (.obj loc1))
      else
        pure obj3
    pure (trim_nulls (.obj obj4))

/-- `Twitter.retweet_to_object` (lines 316-337), on the shared fuel. -/
def retweet_to_objectF : Nat → JValue → Except String JValue
  | 0, _ => .error "RecursionError"
  | fuel + 1, retweet => do
    let orig ← pyGet retweet "retweeted_status"
    if truthy orig = false then
      return .null
    let share ← tweet_to_objectF fuel retweet
    let origUser ← pyGetD orig "user" (.obj [])
    let origSn ← pyGet origUser "screen_name"
    let origId ← pyGet orig "id_str"
    pyUpdate share
      [("objectType", .str "activity"), ("verb", .str "share"),
       ("object", .obj [("url", .str (status_url origSn origId))]),
       ("content", .str "retweeted this.")]
end

/-- Public entry point for `Twitter.tweet_to_object`: the fuel bound is
strictly larger than twice the record size, which dominates the recursion
depth. -/
def tweet_to_object (tweet : JValue) : Except String JValue :=
  tweet_to_objectF (2 * jsize tweet + 2) tweet

/-- Public entry point for `Twitter.retweet_to_object`. -/
def retweet_to_object (retweet : JValue) : Except String JValue :=
  retweet_to_objectF (2 * jsize retweet + 2) retweet

/-- Modelled from the spec: `Source.postprocess_activity` comes from the
missing `source` module. The spec describes the activity conversion's output
only through the §3 invariant ("every normalized entity is built by stripping
null/empty fields") and the §4.4 field list, so the postprocessing step is
modelled as exactly the final recursive trim. -/
def postprocess_activity (activity : JValue) : JValue :=
  trim_nulls activity

/-- `Twitter.tweet_to_activity` (lines 151-188). -/
def tweet_to_activity (tweet : JValue) : Except String JValue := do
  let object ← tweet_to_object tweet
  let published ← pyGet object "published"
  let id ← pyGet object "id"
  let url ← pyGet object "url"
  let actor ← pyGet object "author"
  let activity0 : List (String × JValue) :=
    [("verb", .str "post"), ("published", published), ("id", id),
     ("url", url), ("actor", actor), ("object", object)]
  let reply_to_screenname ← pyGet tweet "in_reply_to_screen_name"
  let reply_to_id ← pyGet tweet "in_reply_to_status_id"
  let activity1 :=
    if truthy reply_to_id && truthy reply_to_screenname then
      objSet activity0 "context" (.obj [("inReplyTo", .list [.obj
        [("objectType", .str "note"),
         ("id", .str (tag_uri reply_to_id)),
         ("url", .str (status_url reply_to_screenname reply_to_id))]])])
    else
      activity0
  let src ← pyGetD tweet "source" (.str "")
  let parsed ← pySearch source_link_re src
  let activity2 :=
    match parsed with
    | some caps =>
      objSet activity1 "generator"
        (.obj [("displayName", capGroup caps 2), ("url", capGroup caps 1)])
    | none => activity1
  pure (postprocess_activity (.obj activity2))

/-! ### Basic lemmas -/

theorem exceptBind_ok {α β : Type} {x : Except String α}
    {f : α → Except String β} {b : β} :
    x >>= f = Except.ok b ↔ ∃ a, x = Except.ok a ∧ f a = Except.ok b := by
  cases x <;> simp [Bind.bind, Except.bind]

theorem exceptPure_ok {α : Type} {a b : α} :
    (pure a : Except String α) = Except.ok b ↔ a = b := by
  simp [pure, Except.pure]

theorem jsize_pos : ∀ v, 1 ≤ jsize v := by
  intro v
  cases v <;> simp only [jsize] <;> omega

theorem jsizeL_mem_le {v : JValue} :
    ∀ {xs : List JValue}, v ∈ xs → jsize v ≤ jsizeL xs := by
  intro xs hv
  induction xs with
  | nil => cases hv
  | cons x rest ih =>
    rcases List.mem_cons.mp hv with h | h
    · subst h; simp only [jsizeL]; omega
    · have := ih h; simp only [jsizeL]; omega

theorem jsizeO_mem_le {p : String × JValue} :
    ∀ {kvs : List (String × JValue)}, p ∈ kvs → jsize p.2 ≤ jsizeO kvs := by
  intro kvs hp
  induction kvs with
  | nil => cases hp
  | cons q rest ih =>
    rcases List.mem_cons.mp hp with h | h
    · subst h; cases p with
      | mk a b => simp only [jsizeO]; omega
    · have := ih h; cases q with
      | mk a b => simp only [jsizeO]; omega

/-! ### Trimming produces clean values -/

theorem trimList_clean_of {xs : List JValue}
    (ih : ∀ v ∈ xs, clean (trim_nulls v) = true) :
    cleanL (trimList xs) = true := by
  induction xs with
  | nil => simp [trimList, cleanL]
  | cons v rest ihr =>
    have hv := ih v (List.mem_cons_self v rest)
    have hrest := ihr (fun w hw => ih w (List.mem_cons_of_mem v hw))
    simp only [trimList]
    split
    · exact hrest
    · next h => simp [cleanL, h, hv, hrest]

theorem trimObj_clean_of {kvs : List (String × JValue)}
    (ih : ∀ p ∈ kvs, clean (trim_nulls p.2) = true) :
    cleanO (trimObj kvs) = true := by
  induction kvs with
  | nil => simp [trimObj, cleanO]
  | cons p rest ihr =>
    have hv := ih p (List.mem_cons_self p rest)
    have hrest := ihr (fun q hq => ih q (List.mem_cons_of_mem p hq))
    cases p with
    | mk k v =>
      simp only [trimObj]
      split
      · exact hrest
      · next h => simp [cleanO, h, hv, hrest]

theorem trim_clean_bound : ∀ n v, jsize v ≤ n → clean (trim_nulls v) = true := by
  intro n
  induction n with
  | zero =>
    intro v hv
    have := jsize_pos v
    omega
  | succ n ih =>
    intro v hv
    cases v with
    | list xs =>
      have hsz : jsizeL xs ≤ n := by simp only [jsize] at hv; omega
      have hx : ∀ w ∈ xs, clean (trim_nulls w) = true := by
        intro w hw
        exact ih w (le_trans (jsizeL_mem_le hw) hsz)
      simp [trim_nulls, clean, trimList_clean_of hx]
    | obj kvs =>
      have hsz : jsizeO kvs ≤ n := by simp only [jsize] at hv; omega
      have hx : ∀ p ∈ kvs, clean (trim_nulls p.2) = true := by
        intro p hp
        exact ih p.2 (le_trans (jsizeO_mem_le hp) hsz)
      simp [trim_nulls, clean, trimObj_clean_of hx]
    | null => simp [trim_nulls, clean]
    | bool b => simp [trim_nulls, clean]
    | int m => simp [trim_nulls, clean]
    | str s => simp [trim_nulls, clean]

/-- Every trimmed value is clean: the recursive trim is exhaustive. -/
theorem trim_clean (v : JValue) : clean (trim_nulls v) = true :=
  trim_clean_bound (jsize v) v le_rfl

/-! ### Lookup lemmas for trimming and mutation -/

theorem lookup_eq_none_of_not_mem {kvs : List (String × JValue)} {k : String}
    (h : ¬ k ∈ kvs.map Prod.fst) : lookup kvs k = none := by
  induction kvs with
  | nil => simp [lookup]
  | cons p rest ih =>
    cases p with
    | mk k1 v1 =>
      simp only [List.map_cons, List.mem_cons] at h
      push_neg at h
      simp [lookup, if_neg (fun he : k1 = k => h.1 he.symm), ih h.2]

theorem lookup_trimObj_none {kvs : List (String × JValue)} {k : String}
    (h : lookup kvs k = none) : lookup (trimObj kvs) k = none := by
  induction kvs with
  | nil => simp [trimObj, lookup]
  | cons p rest ih =>
    cases p with
    | mk k1 v1 =>
      by_cases hk : k1 = k
      · subst hk; simp [lookup] at h
      · simp only [lookup, if_neg hk] at h
        simp only [trimObj]
        split
        · exact ih h
        · simp [lookup, if_neg hk, ih h]

theorem lookup_trimObj_nodup {kvs : List (String × JValue)} {k : String}
    (h : (kvs.map Prod.fst).Nodup) :
    lookup (trimObj kvs) k = (lookup kvs k).bind (fun v =>
      if isEmptyVal (trim_nulls v) then none else some (trim_nulls v)) := by
  induction kvs with
  | nil => simp [trimObj, lookup]
  | cons p rest ih =>
    cases p with
    | mk k1 v1 =>
      simp only [List.map_cons, List.nodup_cons] at h
      by_cases hk : k1 = k
      · subst hk
        have hnone : lookup rest k1 = none := lookup_eq_none_of_not_mem h.1
        simp only [trimObj, lookup, if_pos rfl]
        split
        · next he => simp [lookup_trimObj_none hnone, he]
        · next he => simp [lookup, he]
      · simp only [trimObj, lookup, if_neg hk]
        split
        · exact ih h.2
        · simp [lookup, if_neg hk, ih h.2]

theorem lookup_objSet_self (kvs : List (String × JValue)) (k : String)
    (v : JValue) : lookup (objSet kvs k v) k = some v := by
  induction kvs with
  | nil => simp [objSet, lookup]
  | cons p rest ih =>
    cases p with
    | mk k1 v1 =>
      by_cases hk : k1 = k
      · subst hk; simp [objSet, lookup]
      · simp [objSet, if_neg hk, lookup, ih]

theorem lookup_objSet_ne (kvs : List (String × JValue)) {k k1 : String}
    (v : JValue) (h : k1 ≠ k) : lookup (objSet kvs k v) k1 = lookup kvs k1 := by
  induction kvs with
  | nil => simp [objSet, lookup, if_neg (fun he : k = k1 => h he.symm)]
  | cons p rest ih =>
    cases p with
    | mk k2 v2 =>
      by_cases hk : k2 = k
      · have hne : ¬ (k2 = k1) := fun he => h (he ▸ hk)
        simp [objSet, if_pos hk, lookup, if_neg hne]
      · by_cases hk1 : k2 = k1
        · simp [objSet, if_neg hk, lookup, if_pos hk1]
        · simp [objSet, if_neg hk, lookup, if_neg hk1, ih]

theorem lookup_eraseKey_ne (kvs : List (String × JValue)) {k k1 : String}
    (h : k1 ≠ k) : lookup (eraseKey kvs k) k1 = lookup kvs k1 := by
  induction kvs with
  | nil => simp [eraseKey]
  | cons p rest ih =>
    cases p with
    | mk k2 v2 =>
      by_cases hk : k2 = k
      · have hne : ¬ (k2 = k1) := fun he => h (he ▸ hk)
        simp [eraseKey, if_pos hk, lookup, if_neg hne]
      · simp [eraseKey, if_neg hk, lookup, ih]

theorem lookup_eraseKey_self {kvs : List (String × JValue)} {k : String}
    (h : (kvs.map Prod.fst).Nodup) : lookup (eraseKey kvs k) k = none := by
  induction kvs with
  | nil => simp [eraseKey, lookup]
  | cons p rest ih =>
    cases p with
    | mk k1 v1 =>
      simp only [List.map_cons, List.nodup_cons] at h
      by_cases hk : k1 = k
      · subst hk
        simp only [eraseKey, if_pos rfl]
        exact lookup_eq_none_of_not_mem h.1
      · simp [eraseKey, if_neg hk, lookup, if_neg hk, ih h.2]

theorem keys_objSet (kvs : List (String × JValue)) (k : String) (v : JValue) :
    (objSet kvs k v).map Prod.fst =
      if k ∈ kvs.map Prod.fst then kvs.map Prod.fst
      else kvs.map Prod.fst ++ [k] := by
  induction kvs with
  | nil => simp [objSet]
  | cons p rest ih =>
    cases p with
    | mk k1 v1 =>
      by_cases hk : k1 = k
      · subst hk; simp [objSet]
      · have hks : ¬ (k = k1) := fun he => hk he.symm
        by_cases hm : k ∈ List.map Prod.fst rest
        · simp [objSet, if_neg hk, ih, hm, hks]
        · simp [objSet, if_neg hk, ih, hm, hks]

theorem keys_eraseKey_sublist (kvs : List (String × JValue)) (k : String) :
    ((eraseKey kvs k).map Prod.fst).Sublist (kvs.map Prod.fst) := by
  induction kvs with
  | nil => simp [eraseKey]
  | cons p rest ih =>
    cases p with
    | mk k1 v1 =>
      by_cases hk : k1 = k
      · simp only [eraseKey, if_pos hk, List.map_cons]
        exact List.Sublist.cons k1 (List.Sublist.refl _)
      · simp only [eraseKey, if_neg hk, List.map_cons]
        exact List.Sublist.cons₂ k1 ih

theorem nodup_keys_objSet {kvs : List (String × JValue)} {k : String}
    {v : JValue} (h : (kvs.map Prod.fst).Nodup) :
    ((objSet kvs k v).map Prod.fst).Nodup := by
  rw [keys_objSet]
  split
  · exact h
  · next hm =>
    rw [List.nodup_append]
    refine ⟨h, List.nodup_singleton k, ?_⟩
    intro a ha hb
    simp only [List.mem_singleton] at hb
    subst hb
    exact hm ha

theorem nodup_keys_eraseKey {kvs : List (String × JValue)} {k : String}
    (h : (kvs.map Prod.fst).Nodup) : ((eraseKey kvs k).map Prod.fst).Nodup :=
  (keys_eraseKey_sublist kvs k).nodup h

/-! ### Non-empty strings produced by the URL and id helpers -/

theorem append_ne_empty_left {s t : String} (h : s ≠ "") : s ++ t ≠ "" := by
  intro he
  apply h
  have hd : (s ++ t).data = "".data := congrArg String.data he
  rw [String.data_append] at hd
  have h2 := List.append_eq_nil.mp hd
  exact String.ext h2.1

theorem isEmptyVal_str_false {s : String} (h : s ≠ "") :
    isEmptyVal (.str s) = false := by
  simp [isEmptyVal, h]

theorem tag_uri_not_empty (v : JValue) : isEmptyVal (.str (tag_uri v)) = false :=
  isEmptyVal_str_false (append_ne_empty_left (by decide))

theorem user_url_not_empty (v : JValue) :
    isEmptyVal (.str (user_url v)) = false := by
  apply isEmptyVal_str_false
  apply append_ne_empty_left
  apply append_ne_empty_left
  apply append_ne_empty_left
  decide

theorem status_url_not_empty (u i : JValue) :
    isEmptyVal (.str (status_url u i)) = false := by
  apply isEmptyVal_str_false
  apply append_ne_empty_left
  apply append_ne_empty_left
  apply append_ne_empty_left
  apply append_ne_empty_left
  decide

/-! ### Clean values are preserved by dict mutation -/

theorem cleanO_objSet {kvs : List (String × JValue)} {k : String} {v : JValue}
    (h : cleanO kvs = true) (hv : clean v = true) (he : isEmptyVal v = false) :
    cleanO (objSet kvs k v) = true := by
  induction kvs with
  | nil => simp [objSet, cleanO, hv, he]
  | cons p rest ih =>
    cases p with
    | mk k1 v1 =>
      simp only [cleanO, Bool.and_eq_true] at h
      by_cases hk : k1 = k
      · simp [objSet, if_pos hk, cleanO, hv, he, h.2]
      · simp [objSet, if_neg hk, cleanO, h.1, ih h.2]

/-! ### Result shape of the conversions -/

theorem tweet_to_objectF_shape {fuel : Nat} {t out : JValue}
    (h : tweet_to_objectF fuel t = .ok out) :
    out = .obj [] ∨ ∃ kvs, out = .obj (trimObj kvs) := by
  cases fuel with
  | zero => simp [tweet_to_objectF] at h
  | succ fuel =>
    simp only [tweet_to_objectF] at h
    simp only [exceptBind_ok] at h
    obtain ⟨id, hid, h⟩ := h
    split at h
    · rw [exceptPure_ok] at h
      exact Or.inl h.symm
    · repeat'
        first
          | (obtain ⟨_, _, h⟩ := h)
          | (split at h)
          | (simp only [exceptBind_ok, exceptPure_ok] at h)
      all_goals exact Or.inr ⟨_, rfl⟩

theorem user_to_actor_shape {u out : JValue} (h : user_to_actor u = .ok out) :
    out = .obj [] ∨ ∃ kvs, out = .obj (trimObj kvs) := by
  simp only [user_to_actor] at h
  simp only [exceptBind_ok] at h
  obtain ⟨username, hu, h⟩ := h
  split at h
  · rw [exceptPure_ok] at h
    exact Or.inl h.symm
  · repeat'
      first
        | (obtain ⟨_, _, h⟩ := h)
        | (split at h)
        | (simp only [exceptBind_ok, exceptPure_ok] at h)
    all_goals exact Or.inr ⟨_, rfl⟩

theorem trimObj_clean (kvs : List (String × JValue)) :
    clean (.obj (trimObj kvs)) = true := by
  have := trim_clean (.obj kvs)
  simpa [trim_nulls] using this

theorem tweet_to_objectF_clean {fuel : Nat} {t out : JValue}
    (h : tweet_to_objectF fuel t = .ok out) : clean out = true := by
  rcases tweet_to_objectF_shape h with h1 | ⟨kvs, h1⟩ <;> subst h1
  · rfl
  · exact trimObj_clean kvs

theorem user_to_actor_clean {u out : JValue} (h : user_to_actor u = .ok out) :
    clean out = true := by
  rcases user_to_actor_shape h with h1 | ⟨kvs, h1⟩ <;> subst h1
  · rfl
  · exact trimObj_clean kvs

theorem tweet_to_object_obj {t out : JValue} (h : tweet_to_object t = .ok out) :
    ∃ kvs, out = .obj kvs := by
  rcases tweet_to_objectF_shape h with h1 | ⟨kvs, h1⟩
  · exact ⟨[], h1⟩
  · exact ⟨trimObj kvs, h1⟩

theorem retweet_to_objectF_clean {fuel : Nat} {r out : JValue}
    (h : retweet_to_objectF fuel r = .ok out) : clean out = true := by
  cases fuel with
  | zero => simp [retweet_to_objectF] at h
  | succ fuel =>
    simp only [retweet_to_objectF] at h
    simp only [exceptBind_ok] at h
    obtain ⟨orig, ho, h⟩ := h
    split at h
    · rw [exceptPure_ok] at h
      rw [← h]
      rfl
    · simp only [pure_bind] at h
      simp only [exceptBind_ok] at h
      obtain ⟨share, hshare, h⟩ := h
      obtain ⟨origUser, hou, h⟩ := h
      obtain ⟨origSn, hsn, h⟩ := h
      obtain ⟨origId, hoid, h⟩ := h
      obtain ⟨skvs, hs⟩ : ∃ kvs, share = .obj kvs := by
        rcases tweet_to_objectF_shape hshare with h1 | ⟨kvs, h1⟩
        · exact ⟨[], h1⟩
        · exact ⟨_, h1⟩
      subst hs
      have hclean : cleanO skvs = true := by
        have := tweet_to_objectF_clean hshare
        simpa [clean] using this
      simp only [pyUpdate, List.foldl] at h
      cases h
      show clean (.obj _) = true
      simp only [clean]
      apply cleanO_objSet
      · apply cleanO_objSet
        · apply cleanO_objSet
          · apply cleanO_objSet hclean
            · rfl
            · rfl
          · rfl
          · rfl
        · simp [clean, cleanO, status_url_not_empty]
        · rfl
      · rfl
      · rfl

theorem tweet_to_activity_clean {t out : JValue}
    (h : tweet_to_activity t = .ok out) : clean out = true := by
  simp only [tweet_to_activity] at h
  repeat'
    first
      | (obtain ⟨_, _, h⟩ := h)
      | (split at h)
      | (simp only [exceptBind_ok, exceptPure_ok] at h)
  all_goals exact trim_clean _



theorem okBind {α β : Type} (a : α) (f : α → Except String β) :
    (Except.ok a >>= f) = f a := rfl

theorem objSet_cons_ne {k1 k : String} (v1 v : JValue)
    (rest : List (String × JValue)) (h : k1 ≠ k) :
    objSet ((k1, v1) :: rest) k v = (k1, v1) :: objSet rest k v := by
  simp [objSet, if_neg h]

theorem lookup_trimObj_head {k : String} {v : JValue}
    {rest : List (String × JValue)} (he : isEmptyVal (trim_nulls v) = false) :
    lookup (trimObj ((k, v) :: rest)) k = some (trim_nulls v) := by
  simp [trimObj, he, lookup]

theorem lookup_trimObj_skip {k1 k : String} {v1 : JValue}
    {rest : List (String × JValue)} (h : k1 ≠ k) :
    lookup (trimObj ((k1, v1) :: rest)) k = lookup (trimObj rest) k := by
  simp only [trimObj]
  split
  · rfl
  · simp [lookup, if_neg h]

theorem objSet_append {kvs : List (String × JValue)} {k : String}
    {v : JValue} (h : lookup kvs k = none) : objSet kvs k v = kvs ++ [(k, v)] := by
  induction kvs with
  | nil => rfl
  | cons p rest ih =>
    cases p with
    | mk k1 v1 =>
      by_cases hk : k1 = k
      · subst hk; simp [lookup] at h
      · simp only [lookup, if_neg hk] at h
        simp [objSet, if_neg hk, ih h]

theorem lookup_trimObj_objSet_fresh {L : List (String × JValue)}
    {k : String} {v : JValue} (hnone : lookup L k = none)
    (hne : isEmptyVal (trim_nulls v) = false) :
    lookup (trimObj (objSet L k v)) k = some (trim_nulls v) := by
  induction L with
  | nil => simp [objSet, trimObj, hne, lookup]
  | cons p rest ih =>
    cases p with
    | mk k1 v1 =>
      by_cases hk : k1 = k
      · subst hk; simp [lookup] at hnone
      · simp only [lookup, if_neg hk] at hnone
        rw [objSet_cons_ne _ _ _ hk, lookup_trimObj_skip hk]
        exact ih hnone

theorem lookup_trimObj_objSet_fresh2 {L : List (String × JValue)}
    {k k2 : String} {v w : JValue} (hnone : lookup L k = none)
    (hk2 : k ≠ k2) (hne : isEmptyVal (trim_nulls v) = false) :
    lookup (trimObj (objSet (objSet L k v) k2 w)) k = some (trim_nulls v) := by
  induction L with
  | nil =>
    show lookup (trimObj (objSet [(k, v)] k2 w)) k = _
    rw [objSet_cons_ne _ _ _ (fun he => hk2 he), lookup_trimObj_head hne]
  | cons p rest ih =>
    cases p with
    | mk k1 v1 =>
      by_cases hk : k1 = k
      · subst hk; simp [lookup] at hnone
      · simp only [lookup, if_neg hk] at hnone
        rw [objSet_cons_ne _ _ _ hk]
        by_cases hkk2 : k1 = k2
        · subst hkk2
          have hred : objSet ((k1, v1) :: objSet rest k v) k1 w =
              (k1, w) :: objSet rest k v := by simp [objSet]
          rw [hred, lookup_trimObj_skip hk]
          exact lookup_trimObj_objSet_fresh hnone hne
        · rw [objSet_cons_ne _ _ _ hkk2, lookup_trimObj_skip hk]
          exact ih hnone

theorem ne_obj_nil_of_jlookup {act : JValue} {k : String} {w : JValue}
    (h : jlookup act k = some w) : act ≠ .obj [] := by
  intro he
  subst he
  simp [jlookup, lookup] at h

theorem trimList_id_of {xs : List JValue}
    (hc : cleanL xs = true) (ih : ∀ v ∈ xs, trim_nulls v = v) :
    trimList xs = xs := by
  induction xs with
  | nil => rfl
  | cons v rest ihr =>
    simp only [cleanL, Bool.and_eq_true] at hc
    have hv := ih v (List.mem_cons_self v rest)
    have he : isEmptyVal v = false := by
      have h1 := hc.1.1
      cases hb : isEmptyVal v
      · rfl
      · rw [hb] at h1; exact absurd h1 (by simp)
    simp only [trimList, hv, he]
    simp only [Bool.false_eq_true, if_false]
    rw [ihr hc.2 (fun w hw => ih w (List.mem_cons_of_mem v hw))]

theorem trimObj_id_of {kvs : List (String × JValue)}
    (hc : cleanO kvs = true) (ih : ∀ p ∈ kvs, trim_nulls p.2 = p.2) :
    trimObj kvs = kvs := by
  induction kvs with
  | nil => rfl
  | cons p rest ihr =>
    cases p with
    | mk k v =>
      simp only [cleanO, Bool.and_eq_true] at hc
      have hv := ih (k, v) (List.mem_cons_self _ rest)
      have he : isEmptyVal v = false := by
        have h1 := hc.1.1
        cases hb : isEmptyVal v
        · rfl
        · rw [hb] at h1; exact absurd h1 (by simp)
      simp only [trimObj, hv, he]
      simp only [Bool.false_eq_true, if_false]
      rw [ihr hc.2 (fun q hq => ih q (List.mem_cons_of_mem _ hq))]

theorem cleanL_mem {xs : List JValue} (hc : cleanL xs = true) {w : JValue}
    (hw : w ∈ xs) : clean w = true := by
  induction xs with
  | nil => cases hw
  | cons y rest ihr =>
    simp only [cleanL, Bool.and_eq_true] at hc
    rcases List.mem_cons.mp hw with h | h
    · subst h; exact hc.1.2
    · exact ihr hc.2 h

theorem cleanO_mem {kvs : List (String × JValue)} (hc : cleanO kvs = true)
    {p : String × JValue} (hp : p ∈ kvs) : clean p.2 = true := by
  induction kvs with
  | nil => cases hp
  | cons q rest ihr =>
    cases q with
    | mk kq vq =>
      simp only [cleanO, Bool.and_eq_true] at hc
      rcases List.mem_cons.mp hp with h | h
      · subst h; exact hc.1.2
      · exact ihr hc.2 h

theorem trim_of_clean_bound :
    ∀ n v, jsize v ≤ n → clean v = true → trim_nulls v = v := by
  intro n
  induction n with
  | zero =>
    intro v hv
    have := jsize_pos v
    omega
  | succ n ih =>
    intro v hv hc
    cases v with
    | list xs =>
      have hsz : jsizeL xs ≤ n := by simp only [jsize] at hv; omega
      have hcl : cleanL xs = true := hc
      have hx : ∀ w ∈ xs, trim_nulls w = w := fun w hw =>
        ih w (le_trans (jsizeL_mem_le hw) hsz) (cleanL_mem hcl hw)
      simp only [trim_nulls]
      rw [trimList_id_of hcl hx]
    | obj kvs =>
      have hsz : jsizeO kvs ≤ n := by simp only [jsize] at hv; omega
      have hcl : cleanO kvs = true := hc
      have hx : ∀ p ∈ kvs, trim_nulls p.2 = p.2 := fun p hp =>
        ih p.2 (le_trans (jsizeO_mem_le hp) hsz) (cleanO_mem hcl hp)
      simp only [trim_nulls]
      rw [trimObj_id_of hcl hx]
    | null => rfl
    | bool b => rfl
    | int m => rfl
    | str s => rfl

/-- Trimming is the identity on clean values. -/
theorem trim_of_clean {v : JValue} (hc : clean v = true) : trim_nulls v = v :=
  trim_of_clean_bound (jsize v) v le_rfl hc

/-! ### The claims -/

/-- C2: for every conversion (`user_to_actor`, `tweet_to_object`,
`tweet_to_activity`, `retweet_to_object`) and every input record on which the
conversion returns, the returned value contains no key bound to null, the
empty string, an empty list, or an empty mapping, at any nesting depth
(`clean`). -/
theorem C2_trim_exhaustive (v out : JValue) :
    (user_to_actor v = .ok out → clean out = true) ∧
    (tweet_to_object v = .ok out → clean out = true) ∧
    (tweet_to_activity v = .ok out → clean out = true) ∧
    (retweet_to_object v = .ok out → clean out = true) :=
  ⟨fun h => user_to_actor_clean h,
   fun h => tweet_to_objectF_clean h,
   fun h => tweet_to_activity_clean h,
   fun h => retweet_to_objectF_clean h⟩

/-- Witness for C2: each conversion evaluated at a concrete record, with the
theorem discharging cleanliness of the concrete output. -/
theorem C2_trim_exhaustive_witness :
    user_to_actor (.obj [("screen_name", .str "alice")]) = .ok (.obj
      [("id", .str "tag:twitter.com,2013:alice"),
       ("url", .str "http://twitter.com/alice"),
       ("username", .str "alice")]) ∧
    clean (.obj [("id", .str "tag:twitter.com,2013:alice"),
       ("url", .str "http://twitter.com/alice"),
       ("username", .str "alice")]) = true ∧
    tweet_to_object (.obj [("id_str", .str "7")]) =
      .ok (.obj [("objectType", .str "note")]) ∧
    clean (.obj [("objectType", .str "note")]) = true ∧
    tweet_to_activity (.obj []) = .ok (.obj [("verb", .str "post")]) ∧
    clean (.obj [("verb", .str "post")]) = true ∧
    retweet_to_object (.obj []) = .ok .null ∧
    clean JValue.null = true :=
  ⟨rfl, (C2_trim_exhaustive (.obj [("screen_name", .str "alice")]) _).1 rfl,
   rfl, (C2_trim_exhaustive (.obj [("id_str", .str "7")]) _).2.1 rfl,
   rfl, (C2_trim_exhaustive (.obj []) _).2.2.1 rfl,
   rfl, (C2_trim_exhaustive (.obj []) _).2.2.2 rfl⟩

/-- C3: `rfc2822_to_iso8601` maps an absent (`None`) or empty input to an
absent output, and maps `"Wed May 23 06:01:13 +0000 2007"` to
`"2007-05-23T06:01:13"`: the numeric UTC-offset token is stripped and
discarded and the hour/minute fields are unchanged. -/
theorem C3_rfc2822_examples :
    rfc2822_to_iso8601 .null = .ok .null ∧
    rfc2822_to_iso8601 (.str "") = .ok .null ∧
    rfc2822_to_iso8601 (.str "Wed May 23 06:01:13 +0000 2007") =
      .ok (.str "2007-05-23T06:01:13") :=
  ⟨rfl, rfl, rfl⟩

/-- C9: there is a non-empty timestamp string on which
`rfc2822_to_iso8601` raises (`ValueError` from `strptime`) instead of
returning, and `tweet_to_object` on a tweet carrying it as `created_at`
propagates the exception instead of omitting `published`. -/
theorem C9_bad_timestamp_raises :
    ∃ s : String, s ≠ "" ∧
      rfc2822_to_iso8601 (.str s) = .error "ValueError" ∧
      tweet_to_object (.obj [("id_str", .str "1"), ("created_at", .str s)]) =
        .error "ValueError" :=
  ⟨"not a timestamp", by decide, rfl, rfl⟩


/-- C1 counterexample: on the record `{}` (no string id), object conversion
returns the empty mapping, but activity conversion returns the non-empty
mapping `{verb: "post"}`: the claim that both conversions return an empty
mapping is false. -/
theorem C1_counterexample :
    tweet_to_object (.obj []) = .ok (.obj []) ∧
    tweet_to_activity (.obj []) = .ok (.obj [("verb", .str "post")]) ∧
    tweet_to_activity (.obj []) ≠ .ok (.obj []) :=
  ⟨rfl, rfl, fun h => by
    have h1 : (Except.ok (JValue.obj [("verb", JValue.str "post")]) :
        Except String JValue) = Except.ok (JValue.obj []) := h
    simp at h1⟩

/-- C1 (amended): for every source record lacking a truthy string id,
`tweet_to_object` returns an empty mapping and no exception is raised;
`tweet_to_activity`, however, does not return an empty mapping: whenever it
returns, its result still carries the constant `verb = "post"` entry and is
therefore non-empty. -/
theorem C1_amended_missing_id (kvs : List (String × JValue)) :
    truthy ((lookup kvs "id_str").getD .null) = false →
    tweet_to_object (.obj kvs) = .ok (.obj []) ∧
    (∀ act, tweet_to_activity (.obj kvs) = .ok act →
      jlookup act "verb" = some (.str "post") ∧ act ≠ .obj []) := by
  intro hid
  have h1 : pyGet (JValue.obj kvs) "id_str" =
      .ok ((lookup kvs "id_str").getD .null) := rfl
  have hobj : tweet_to_object (.obj kvs) = .ok (.obj []) := by
    show tweet_to_objectF _ _ = _
    simp only [tweet_to_objectF, h1, okBind]
    rw [if_pos hid]
    rfl
  refine ⟨hobj, ?_⟩
  intro act hact
  simp only [tweet_to_activity] at hact
  simp only [show tweet_to_object (JValue.obj kvs) =
      .ok (.obj []) from hobj, okBind] at hact
  simp only [pyGet, lookup, okBind, Option.getD] at hact
  simp only [exceptBind_ok] at hact
  obtain ⟨src, hsrc, hact⟩ := hact
  have hverb : ∀ X : List (String × JValue),
      jlookup (postprocess_activity (.obj (("verb", JValue.str "post") :: X)))
        "verb" = some (.str "post") := by
    intro X
    show lookup (trimObj (("verb", JValue.str "post") :: X)) "verb" =
      some (JValue.str "post")
    rw [lookup_trimObj_head (by decide)]
    rfl
  split at hact <;>
  · obtain ⟨g, hg, hact⟩ := hact
    split at hact <;>
    · rw [exceptPure_ok] at hact
      subst hact
      exact ⟨hverb _, ne_obj_nil_of_jlookup (hverb _)⟩


/-- Witness for C1 (amended), at the empty record. -/
theorem C1_amended_missing_id_witness :
    tweet_to_object (.obj []) = .ok (.obj []) ∧
    jlookup (.obj [("verb", JValue.str "post")]) "verb" =
      some (.str "post") ∧
    JValue.obj [("verb", JValue.str "post")] ≠ .obj [] :=
  ⟨(C1_amended_missing_id [] rfl).1,
   ((C1_amended_missing_id [] rfl).2 _ rfl).1,
   ((C1_amended_missing_id [] rfl).2 _ rfl).2⟩

/-- C5: `retweet_to_object` returns `None` when the source record has no
truthy nested `retweeted_status`; any non-`None` result carries
`objectType = "activity"`, `verb = "share"`, and the fixed literal content
`"retweeted this."`; and on a concrete retweet wrapping an original by user
`alice` with id `42`, `object.url` is the canonical status URL
`http://twitter.com/alice/status/42`. -/
theorem C5_retweet_share :
    (∀ kvs, truthy ((lookup kvs "retweeted_status").getD .null) = false →
      retweet_to_object (.obj kvs) = .ok .null) ∧
    (∀ r out, retweet_to_object r = .ok out → out ≠ .null →
      jlookup out "objectType" = some (.str "activity") ∧
      jlookup out "verb" = some (.str "share") ∧
      jlookup out "content" = some (.str "retweeted this.")) ∧
    retweet_to_object (.obj [("retweeted_status", .obj [("id_str", .str "42"),
        ("user", .obj [("screen_name", .str "alice")])])]) =
      .ok (.obj [("objectType", .str "activity"), ("verb", .str "share"),
        ("object", .obj [("url", .str "http://twitter.com/alice/status/42")]),
        ("content", .str "retweeted this.")]) := by
  refine ⟨?_, ?_, rfl⟩
  · intro kvs h
    have h1 : pyGet (JValue.obj kvs) "retweeted_status" =
        .ok ((lookup kvs "retweeted_status").getD .null) := rfl
    show retweet_to_objectF _ _ = _
    simp only [retweet_to_objectF, h1, okBind]
    rw [if_pos h]
    rfl
  · intro r out h hne
    replace h : retweet_to_objectF (2 * jsize r + 2) r = .ok out := h
    simp only [retweet_to_objectF] at h
    simp only [exceptBind_ok] at h
    obtain ⟨orig, ho, h⟩ := h
    split at h
    · rw [exceptPure_ok] at h
      exact absurd h.symm hne
    · simp only [pure_bind] at h
      simp only [exceptBind_ok] at h
      obtain ⟨share, hshare, h⟩ := h
      obtain ⟨origUser, hou, h⟩ := h
      obtain ⟨origSn, hsn, h⟩ := h
      obtain ⟨origId, hoid, h⟩ := h
      obtain ⟨skvs, hs⟩ : ∃ skvs, share = .obj skvs := by
        rcases tweet_to_objectF_shape hshare with h1 | ⟨k1, h1⟩
        · exact ⟨[], h1⟩
        · exact ⟨_, h1⟩
      subst hs
      simp only [pyUpdate, List.foldl] at h
      simp only [Except.ok.injEq] at h
      subst h
      refine ⟨?_, ?_, ?_⟩
      · simp only [jlookup]
        rw [lookup_objSet_ne _ _ (by decide), lookup_objSet_ne _ _ (by decide),
          lookup_objSet_ne _ _ (by decide), lookup_objSet_self]
      · simp only [jlookup]
        rw [lookup_objSet_ne _ _ (by decide), lookup_objSet_ne _ _ (by decide),
          lookup_objSet_self]
      · simp only [jlookup]
        rw [lookup_objSet_self]

/-- Witness for C5, at the empty record (absent `retweeted_status`) and at
the concrete retweet record. -/
theorem C5_retweet_share_witness :
    retweet_to_object (.obj []) = .ok .null ∧
    jlookup (.obj [("objectType", JValue.str "activity"),
      ("verb", JValue.str "share"),
      ("object", .obj [("url", JValue.str "http://twitter.com/alice/status/42")]),
      ("content", JValue.str "retweeted this.")]) "verb" =
        some (.str "share") :=
  ⟨C5_retweet_share.1 [] rfl,
   (C5_retweet_share.2.1
     (.obj [("retweeted_status", .obj [("id_str", .str "42"),
       ("user", .obj [("screen_name", .str "alice")])])])
     (.obj [("objectType", JValue.str "activity"),
       ("verb", JValue.str "share"),
       ("object", .obj [("url", JValue.str "http://twitter.com/alice/status/42")]),
       ("content", JValue.str "retweeted this.")])
     rfl (fun h => JValue.noConfusion h)).2.1⟩

/-- C10: a retweet record that carries a (non-empty) nested
`retweeted_status` but lacks a truthy `id_str` still converts to a non-empty
share mapping (at least `objectType = "activity"`, `verb = "share"`, and
`content = "retweeted this."`): the missing-id empty-mapping policy of
`tweet_to_object` does not propagate, because the share fields are added
after the base conversion returns its empty result. -/
theorem C10_share_without_id :
    (∀ kvs os out, lookup kvs "retweeted_status" = some (.obj os) → os ≠ [] →
      truthy ((lookup kvs "id_str").getD .null) = false →
      retweet_to_object (.obj kvs) = .ok out →
      jlookup out "objectType" = some (.str "activity") ∧
      jlookup out "verb" = some (.str "share") ∧
      jlookup out "content" = some (.str "retweeted this.") ∧
      out ≠ .null ∧ out ≠ .obj []) ∧
    retweet_to_object (.obj [("retweeted_status", .obj [("id_str", .str "42"),
        ("user", .obj [("screen_name", .str "alice")])])]) =
      .ok (.obj [("objectType", .str "activity"), ("verb", .str "share"),
        ("object", .obj [("url", .str "http://twitter.com/alice/status/42")]),
        ("content", .str "retweeted this.")]) := by
  refine ⟨?_, rfl⟩
  intro kvs os out hrs hos hid h
  replace h : retweet_to_objectF (2 * jsize (JValue.obj kvs) + 2)
      (JValue.obj kvs) = .ok out := h
  simp only [retweet_to_objectF] at h
  simp only [exceptBind_ok] at h
  obtain ⟨orig, ho, h⟩ := h
  have horig : orig = .obj os := by
    have : pyGet (JValue.obj kvs) "retweeted_status" =
        .ok ((lookup kvs "retweeted_status").getD .null) := rfl
    rw [this, hrs] at ho
    simpa using ho.symm
  subst horig
  split at h
  · next hcond =>
    cases os with
    | nil => exact absurd rfl hos
    | cons p rest => exact Bool.noConfusion hcond
  · simp only [pure_bind] at h
    simp only [exceptBind_ok] at h
    obtain ⟨share, hshare, h⟩ := h
    obtain ⟨origUser, hou, h⟩ := h
    obtain ⟨origSn, hsn, h⟩ := h
    obtain ⟨origId, hoid, h⟩ := h
    obtain ⟨skvs, hs⟩ : ∃ skvs, share = .obj skvs := by
      rcases tweet_to_objectF_shape hshare with h1 | ⟨k1, h1⟩
      · exact ⟨[], h1⟩
      · exact ⟨_, h1⟩
    subst hs
    simp only [pyUpdate, List.foldl] at h
    simp only [Except.ok.injEq] at h
    subst h
    have hot : jlookup (JValue.obj (objSet (objSet (objSet (objSet skvs
        "objectType" (JValue.str "activity")) "verb" (JValue.str "share"))
        "object" (JValue.obj [("url", JValue.str (status_url origSn origId))]))
        "content" (JValue.str "retweeted this."))) "objectType" =
        some (.str "activity") := by
      simp only [jlookup]
      rw [lookup_objSet_ne _ _ (by decide), lookup_objSet_ne _ _ (by decide),
        lookup_objSet_ne _ _ (by decide), lookup_objSet_self]
    refine ⟨hot, ?_, ?_, fun hx => JValue.noConfusion hx,
      ne_obj_nil_of_jlookup hot⟩
    · simp only [jlookup]
      rw [lookup_objSet_ne _ _ (by decide), lookup_objSet_ne _ _ (by decide),
        lookup_objSet_self]
    · simp only [jlookup]
      rw [lookup_objSet_self]

/-- Witness for C10, at the concrete id-less retweet record. -/
theorem C10_share_without_id_witness :
    jlookup (.obj [("objectType", JValue.str "activity"),
      ("verb", JValue.str "share"),
      ("object", .obj [("url", JValue.str "http://twitter.com/alice/status/42")]),
      ("content", JValue.str "retweeted this.")]) "content" =
        some (.str "retweeted this.") :=
  (C10_share_without_id.1
    [("retweeted_status", .obj [("id_str", .str "42"),
      ("user", .obj [("screen_name", .str "alice")])])]
    [("id_str", .str "42"), ("user", .obj [("screen_name", .str "alice")])]
    _ rfl (fun h => List.noConfusion h) rfl rfl).2.2.1


/-- C4: for every entity tag carrying a two-element integer span `[s, e]`
under `indices`, the span rewrite applied by `tweet_to_object` to each tag
emits exactly `startIndex = s` and `length = e - s` and removes the raw
`indices` key — both before and after the final trim — and a concrete tweet
with a mention entity spanning `[3, 8]` converts to a tag carrying
`startIndex = 3`, `length = 5`, and no `indices` key. -/
theorem C4_span_rewrite :
    (∀ kvs s e, (kvs.map Prod.fst).Nodup →
      lookup kvs "indices" = some (.list [.int s, .int e]) →
      ∃ tkvs, rewrite_tag_indices (.obj kvs) = .ok (.obj tkvs) ∧
        lookup tkvs "startIndex" = some (.int s) ∧
        lookup tkvs "length" = some (.int (e - s)) ∧
        lookup tkvs "indices" = none ∧
        jlookup (trim_nulls (.obj tkvs)) "startIndex" = some (.int s) ∧
        jlookup (trim_nulls (.obj tkvs)) "length" = some (.int (e - s)) ∧
        jlookup (trim_nulls (.obj tkvs)) "indices" = none) ∧
    tweet_to_object (.obj [("id_str", .str "1"),
      ("entities", .obj [("user_mentions", .list [.obj
        [("screen_name", .str "bob"), ("name", .str "Bob"),
         ("indices", .list [.int 3, .int 8])]])])]) =
    .ok (.obj [("objectType", .str "note"),
      ("tags", .list [.obj [("objectType", .str "person"),
        ("id", .str "tag:twitter.com,2013:bob"),
        ("url", .str "http://twitter.com/bob"),
        ("displayName", .str "Bob"),
        ("startIndex", .int 3), ("length", .int 5)]])]) := by
  refine ⟨?_, rfl⟩
  intro kvs s e hnd hind
  have h1 : pyGet (.obj kvs) "indices" =
      .ok ((lookup kvs "indices").getD .null) := rfl
  have hrw : rewrite_tag_indices (.obj kvs) = .ok (.obj (eraseKey (objSet
      (objSet kvs "startIndex" (.int s)) "length" (.int (e - s)))
      "indices")) := by
    simp only [rewrite_tag_indices, h1, okBind, hind, Option.getD]
    rw [if_pos (show truthy (JValue.list [.int s, .int e]) = true from rfl)]
    simp only [pyIndex, List.get?, okBind, pySub, pySetItem, pyDelItem]
    rw [lookup_objSet_ne _ _ (by decide), lookup_objSet_ne _ _ (by decide),
      hind]
    rfl
  have hnd2 : (((objSet (objSet kvs "startIndex" (.int s)) "length"
      (.int (e - s))).map Prod.fst)).Nodup :=
    nodup_keys_objSet (nodup_keys_objSet hnd)
  have hstart : lookup (eraseKey (objSet (objSet kvs "startIndex" (.int s))
      "length" (.int (e - s))) "indices") "startIndex" = some (.int s) := by
    rw [lookup_eraseKey_ne _ (by decide), lookup_objSet_ne _ _ (by decide),
      lookup_objSet_self]
  have hlen : lookup (eraseKey (objSet (objSet kvs "startIndex" (.int s))
      "length" (.int (e - s))) "indices") "length" = some (.int (e - s)) := by
    rw [lookup_eraseKey_ne _ (by decide), lookup_objSet_self]
  have hindnone : lookup (eraseKey (objSet (objSet kvs "startIndex" (.int s))
      "length" (.int (e - s))) "indices") "indices" = none :=
    lookup_eraseKey_self hnd2
  refine ⟨_, hrw, hstart, hlen, hindnone, ?_, ?_, ?_⟩
  · show lookup (trimObj _) "startIndex" = _
    rw [lookup_trimObj_nodup (nodup_keys_eraseKey hnd2), hstart]
    rfl
  · show lookup (trimObj _) "length" = _
    rw [lookup_trimObj_nodup (nodup_keys_eraseKey hnd2), hlen]
    rfl
  · show lookup (trimObj _) "indices" = none
    exact lookup_trimObj_none hindnone

/-- Witness for C4, at a concrete mention tag spanning `[3, 8]`. -/
theorem C4_span_rewrite_witness :
    ∃ tkvs, rewrite_tag_indices (.obj [("objectType", .str "person"),
        ("displayName", .str "Bob"),
        ("indices", .list [.int 3, .int 8])]) = .ok (.obj tkvs) ∧
      lookup tkvs "startIndex" = some (.int 3) ∧
      lookup tkvs "length" = some (.int 5) ∧
      lookup tkvs "indices" = none ∧
      jlookup (trim_nulls (.obj tkvs)) "startIndex" = some (.int 3) ∧
      jlookup (trim_nulls (.obj tkvs)) "length" = some (.int 5) ∧
      jlookup (trim_nulls (.obj tkvs)) "indices" = none :=
  C4_span_rewrite.1 [("objectType", .str "person"),
    ("displayName", .str "Bob"), ("indices", .list [.int 3, .int 8])]
    3 8 (by decide) rfl

/-- C8 counterexample: at the absent user input (`None`), `user_to_actor`
raises `AttributeError` (from `None.get('screen_name')`) instead of
returning an empty mapping, so the claim that every empty-or-absent input
yields an empty mapping without raising is false. -/
theorem C8_counterexample :
    user_to_actor .null = .error "AttributeError" ∧
    user_to_actor .null ≠ .ok (.obj []) :=
  ⟨rfl, fun h => by
    have h1 : (Except.error "AttributeError" : Except String JValue) =
        Except.ok (JValue.obj []) := h
    simp at h1⟩

/-- C8 (amended): a user mapping whose screen name is missing or falsy
converts to the empty mapping without raising (an absent — `None` — user
instead raises `AttributeError`, see the counterexample); a user mapping
whose screen name is a non-empty string `name` converts, whenever conversion
returns, to an actor whose `url` is exactly `http://twitter.com/<name>`. -/
theorem C8_user_to_actor (kvs : List (String × JValue)) :
    (truthy ((lookup kvs "screen_name").getD .null) = false →
      user_to_actor (.obj kvs) = .ok (.obj [])) ∧
    (∀ name act, lookup kvs "screen_name" = some (.str name) → name ≠ "" →
      user_to_actor (.obj kvs) = .ok act →
      jlookup act "url" = some (.str ("http://twitter.com/" ++ name))) := by
  have h1 : pyGet (.obj kvs) "screen_name" =
      .ok ((lookup kvs "screen_name").getD .null) := rfl
  constructor
  · intro h
    simp only [user_to_actor, h1, okBind]
    rw [if_pos h]
    rfl
  · intro name act hsn hname hact
    simp only [user_to_actor, h1, hsn, Option.getD, okBind] at hact
    have hcond : ¬ (truthy (JValue.str name) = false) := by
      simp [truthy, hname]
    rw [if_neg hcond] at hact
    simp only [pure_bind] at hact
    simp only [pyGet, okBind] at hact
    simp only [exceptBind_ok] at hact
    obtain ⟨published, hpub, hact⟩ := hact
    rw [exceptPure_ok] at hact
    subst hact
    have hne2 : isEmptyVal (trim_nulls (JValue.str
        (user_url (JValue.str name)))) = false :=
      user_url_not_empty (JValue.str name)
    show lookup (trimObj _) "url" = _
    rw [lookup_trimObj_skip (by decide), lookup_trimObj_skip (by decide),
      lookup_trimObj_skip (by decide), lookup_trimObj_skip (by decide),
      lookup_trimObj_head hne2]
    rfl

/-- Witness for C8, at the empty user and at a user with screen name
`alice`. -/
theorem C8_user_to_actor_witness :
    user_to_actor (.obj []) = .ok (.obj []) ∧
    user_to_actor (.obj [("screen_name", .str "alice")]) = .ok (.obj
      [("id", .str "tag:twitter.com,2013:alice"),
       ("url", .str "http://twitter.com/alice"),
       ("username", .str "alice")]) ∧
    jlookup (.obj [("id", JValue.str "tag:twitter.com,2013:alice"),
       ("url", JValue.str "http://twitter.com/alice"),
       ("username", JValue.str "alice")]) "url" =
      some (.str ("http://twitter.com/" ++ "alice")) :=
  ⟨(C8_user_to_actor []).1 rfl, rfl,
   (C8_user_to_actor [("screen_name", .str "alice")]).2 "alice"
     (.obj [("id", JValue.str "tag:twitter.com,2013:alice"),
       ("url", JValue.str "http://twitter.com/alice"),
       ("username", JValue.str "alice")]) rfl (by decide) rfl⟩


/-- C7: a source string matching the anchor pattern yields
`generator = {displayName: NAME, url: URL}` — concretely
`<a href="http://x.io/app">MyApp</a>` yields displayName `MyApp` and url
`http://x.io/app` — while a source string the pattern search fails on
yields no `generator` key at all and raises nothing (concretely `"web"`,
and in general for every successful conversion whose source string the
search fails on). -/
theorem C7_generator :
    tweet_to_activity (.obj [("source",
        .str "<a href=\"http://x.io/app\">MyApp</a>")]) =
      .ok (.obj [("verb", .str "post"),
        ("generator", .obj [("displayName", .str "MyApp"),
          ("url", .str "http://x.io/app")])]) ∧
    tweet_to_activity (.obj [("source", .str "web")]) =
      .ok (.obj [("verb", .str "post")]) ∧
    (∀ kvs act, tweet_to_activity (.obj kvs) = .ok act →
      pySearch source_link_re ((lookup kvs "source").getD (.str "")) =
        .ok none →
      jlookup act "generator" = none) := by
  refine ⟨rfl, rfl, ?_⟩
  intro kvs act hact hsearch
  simp only [tweet_to_activity] at hact
  simp only [exceptBind_ok] at hact
  obtain ⟨object, hobj, hact⟩ := hact
  obtain ⟨okvs, ho⟩ := tweet_to_object_obj hobj
  subst ho
  obtain ⟨published, hpub, hact⟩ := hact
  obtain ⟨id, hid, hact⟩ := hact
  obtain ⟨url, hurl, hact⟩ := hact
  obtain ⟨actor, hactor, hact⟩ := hact
  obtain ⟨rsn, hrsn, hact⟩ := hact
  obtain ⟨rid, hrid, hact⟩ := hact
  obtain ⟨src, hsrc, hact⟩ := hact
  obtain ⟨parsed, hp, hact⟩ := hact
  have hsrc2 : Except.ok ((lookup kvs "source").getD (.str "")) =
      Except.ok src := hsrc
  injection hsrc2 with hsrc3
  subst hsrc3
  have hnone : parsed = none := by
    have h2 := hp.symm.trans hsearch
    injection h2
  subst hnone
  repeat'
    first
      | (split at hact)
      | (rw [exceptPure_ok] at hact)
  all_goals
    first
      | (subst hact
         show lookup (trimObj _) "generator" = none
         exact lookup_trimObj_none rfl)
      | simp_all

/-- Witness for C7, at the concrete anchor-free source string `"web"`. -/
theorem C7_generator_witness :
    jlookup (.obj [("verb", JValue.str "post")]) "generator" = none :=
  C7_generator.2.2 [("source", .str "web")]
    (.obj [("verb", JValue.str "post")]) rfl rfl


/-- C6: `tweet_to_activity` emits a `context.inReplyTo` singleton list
referencing the parent by tag URI and status URL exactly when both the
reply-to status id and the reply-to screen name are truthy on the source
tweet; if either is missing, the output has no `context` key at all. -/
theorem C6_reply_context (kvs : List (String × JValue)) (act : JValue)
    (hact : tweet_to_activity (.obj kvs) = .ok act) :
    (truthy ((lookup kvs "in_reply_to_status_id").getD .null) = true →
     truthy ((lookup kvs "in_reply_to_screen_name").getD .null) = true →
      jlookup act "context" = some (.obj [("inReplyTo", .list [.obj
        [("objectType", .str "note"),
         ("id", .str (tag_uri ((lookup kvs "in_reply_to_status_id").getD .null))),
         ("url", .str (status_url
           ((lookup kvs "in_reply_to_screen_name").getD .null)
           ((lookup kvs "in_reply_to_status_id").getD .null)))]])])) ∧
    ((truthy ((lookup kvs "in_reply_to_status_id").getD .null) = false ∨
      truthy ((lookup kvs "in_reply_to_screen_name").getD .null) = false) →
      jlookup act "context" = none) := by
  simp only [tweet_to_activity] at hact
  simp only [exceptBind_ok] at hact
  obtain ⟨object, hobj, hact⟩ := hact
  obtain ⟨okvs, ho⟩ := tweet_to_object_obj hobj
  subst ho
  obtain ⟨published, hpub, hact⟩ := hact
  obtain ⟨id, hid, hact⟩ := hact
  obtain ⟨url, hurl, hact⟩ := hact
  obtain ⟨actor, hactor, hact⟩ := hact
  obtain ⟨rsn, hrsn, hact⟩ := hact
  obtain ⟨rid, hrid, hact⟩ := hact
  obtain ⟨src, hsrc, hact⟩ := hact
  obtain ⟨parsed, hp, hact⟩ := hact
  have hrsn2 : Except.ok ((lookup kvs "in_reply_to_screen_name").getD .null) =
      Except.ok rsn := hrsn
  have hrid2 : Except.ok ((lookup kvs "in_reply_to_status_id").getD .null) =
      Except.ok rid := hrid
  injection hrsn2 with hrsn3
  injection hrid2 with hrid3
  rw [hrsn3, hrid3]
  constructor
  · intro htid htsn
    have hne1 : isEmptyVal (JValue.str "note") = false := by decide
    have e2 : ∀ (p : String × JValue) (l : List (String × JValue)),
        isEmptyVal (JValue.obj (p :: l)) = false := fun _ _ => rfl
    have e3 : ∀ (x : JValue) (l : List JValue),
        isEmptyVal (JValue.list (x :: l)) = false := fun _ _ => rfl
    have hclean : clean (JValue.obj [("inReplyTo", JValue.list [JValue.obj
        [("objectType", JValue.str "note"),
         ("id", JValue.str (tag_uri rid)),
         ("url", JValue.str (status_url rsn rid))]])]) = true := by
      simp [clean, cleanO, cleanL, hne1, e2, e3, tag_uri_not_empty,
        status_url_not_empty]
    have htrim : trim_nulls (JValue.obj [("inReplyTo", JValue.list [JValue.obj
        [("objectType", JValue.str "note"),
         ("id", JValue.str (tag_uri rid)),
         ("url", JValue.str (status_url rsn rid))]])]) =
        JValue.obj [("inReplyTo", JValue.list [JValue.obj
        [("objectType", JValue.str "note"),
         ("id", JValue.str (tag_uri rid)),
         ("url", JValue.str (status_url rsn rid))]])] := trim_of_clean hclean
    have hctxne : isEmptyVal (trim_nulls (JValue.obj [("inReplyTo",
        JValue.list [JValue.obj
        [("objectType", JValue.str "note"),
         ("id", JValue.str (tag_uri rid)),
         ("url", JValue.str (status_url rsn rid))]])])) = false := by
      rw [htrim]
      rfl
    split at hact
    · split at hact
      · rw [exceptPure_ok] at hact
        subst hact
        show lookup (trimObj _) "context" = _
        refine Eq.trans (lookup_trimObj_objSet_fresh2 ?_ (by decide) hctxne) ?_
        · rfl
        · rw [htrim]
      · next hcondF =>
        exact absurd (by simp [htid, htsn] : (truthy rid && truthy rsn) = true)
          hcondF
    · split at hact
      · rw [exceptPure_ok] at hact
        subst hact
        show lookup (trimObj _) "context" = _
        refine Eq.trans (lookup_trimObj_objSet_fresh ?_ hctxne) ?_
        · rfl
        · rw [htrim]
      · next hcondF =>
        exact absurd (by simp [htid, htsn] : (truthy rid && truthy rsn) = true)
          hcondF
  · intro hor
    have hcondF : ¬ ((truthy rid && truthy rsn) = true) := by
      rcases hor with h | h <;> simp [h]
    split at hact <;>
      (split at hact
       · first
          | (next hcondT _ => exact absurd hcondT hcondF)
          | (next hcondT => exact absurd hcondT hcondF)
       · rw [exceptPure_ok] at hact
         subst hact
         show lookup (trimObj _) "context" = none
         exact lookup_trimObj_none rfl)

/-- Witness for C6, at a tweet carrying both reply-to fields and at the
empty tweet. -/
theorem C6_reply_context_witness :
    jlookup (.obj [("verb", JValue.str "post"),
      ("object", .obj [("objectType", JValue.str "note")]),
      ("context", .obj [("inReplyTo", .list [.obj
        [("objectType", JValue.str "note"),
         ("id", JValue.str "tag:twitter.com,2013:91"),
         ("url", JValue.str "http://twitter.com/xy/status/91")]])])]) "context" =
      some (.obj [("inReplyTo", .list [.obj
        [("objectType", JValue.str "note"),
         ("id", JValue.str "tag:twitter.com,2013:91"),
         ("url", JValue.str "http://twitter.com/xy/status/91")]])]) ∧
    jlookup (.obj [("verb", JValue.str "post")]) "context" = none :=
  ⟨(C6_reply_context [("id_str", .str "1"),
      ("in_reply_to_status_id", .int 91),
      ("in_reply_to_screen_name", .str "xy")]
      (.obj [("verb", JValue.str "post"),
        ("object", .obj [("objectType", JValue.str "note")]),
        ("context", .obj [("inReplyTo", .list [.obj
          [("objectType", JValue.str "note"),
           ("id", JValue.str "tag:twitter.com,2013:91"),
           ("url", JValue.str "http://twitter.com/xy/status/91")]])])])
      rfl).1 rfl rfl,
   (C6_reply_context [] (.obj [("verb", JValue.str "post")]) rfl).2
     (Or.inl rfl)⟩

end Granary

